import Mathlib

/-
Verification of the clap command-line source for the config crate
(src/clap/source.rs).  The resolution logic (parse_multiple_values_default,
parse_multiple_values_as_array, parse_arguments, get_item, collect) is
embedded shallowly below; the surrounding config-crate value model and the
clap argument store are external collaborators and are modelled from the
spec where noted.
-/

mutual

/-- Modelled from the spec: the configuration value model (config crate
`ValueKind`, not under src/) is a tagged union over at least Boolean,
String and Sequence-of-String; the broader model supports further kinds,
represented here by `nil`, `i64` and `u64`, whose payloads never matter to
this core (only the tag of a metadata entry is inspected). -/
inductive ValueKind where
  | nil : ValueKind
  | boolean : Bool → ValueKind
  | i64 : Int → ValueKind
  | u64 : Nat → ValueKind
  | string : String → ValueKind
  | array : List Value → ValueKind

/-- Modelled from the spec: a Typed Value (config crate `Value`, not under
src/) wraps a kind together with an optional origin label. -/
inductive Value where
  | mk : Option String → ValueKind → Value

end

/-- Origin label carried by a value. -/
def Value.origin : Value → Option String
  | Value.mk o _ => o

/-- Kind carried by a value. -/
def Value.kind : Value → ValueKind
  | Value.mk _ k => k

/-- Value constructor (the Value Builder of the spec): wraps a resolved
kind with an origin label. -/
def Value.new (origin : Option String) (kind : ValueKind) : Value :=
  Value.mk origin kind

@[simp] theorem Value.origin_new (o : Option String) (k : ValueKind) :
    (Value.new o k).origin = o := rfl

@[simp] theorem Value.kind_new (o : Option String) (k : ValueKind) :
    (Value.new o k).kind = k := rfl

/-- Modelled from the spec: the declared primitive type the argument store
associates with a key (runtime type identifier in the source, compared
against bool and String markers; anything else is the fallback path). -/
inductive TypeId where
  | boolType : TypeId
  | stringType : TypeId
  | otherType : TypeId
deriving DecidableEq

/-- Modelled from the spec: per-key contents of the Argument Store — a
declared type (absent when the store has no type information), the boolean
value when one exists, and the ordered raw string occurrences. -/
structure ArgEntry where
  type_id : Option TypeId
  bool_value : Option Bool
  string_values : List String

/-- Modelled from the spec: the Argument Store Adapter (clap `ArgMatches`,
an external collaborator), keyed by argument name. -/
structure ArgMatches where
  args : List (String × ArgEntry)

/-- Modelled from the spec: `list_recognized_keys` — every key the store
recognizes, in declaration order. -/
def ArgMatches.get_keys (m : ArgMatches) : List String :=
  m.args.map Prod.fst

/-- Modelled from the spec: fetch the store entry for a key, if any. -/
def ArgMatches.get_arg_by_name (m : ArgMatches) (key : String) : Option ArgEntry :=
  (m.args.find? (fun p => p.1 == key)).map Prod.snd

/-- Modelled from the spec: `get_boolean(key)` — the boolean value the
store reports for a key, if any. -/
def ArgMatches.get_one_bool (m : ArgMatches) (key : String) : Option Bool :=
  (m.get_arg_by_name key).bind ArgEntry.bool_value

/-- Modelled from the spec: `get_one_string(key)` — the first raw string
occurrence for a key, if any. -/
def ArgMatches.get_one_string (m : ArgMatches) (key : String) : Option String :=
  (m.get_arg_by_name key).bind (fun e => e.string_values.head?)

/-- Modelled from the spec: `get_many_strings(key)` — the ordered raw
string occurrences for a key; absent when the key has none. -/
def ArgMatches.get_many_string (m : ArgMatches) (key : String) : Option (List String) :=
  (m.get_arg_by_name key).bind
    (fun e => if e.string_values.isEmpty then none else some e.string_values)

/-- Configuration errors; the source only ever constructs the Message
variant of the config crate error type. -/
inductive ConfigError where
  | message : String → ConfigError
deriving DecidableEq

/-- Outcome of running a fallible source function: a returned value, a
returned error, or a panic (abnormal termination from unwrap or expect). -/
inductive Outcome (α : Type) where
  | ok : α → Outcome α
  | err : ConfigError → Outcome α
  | panicked : String → Outcome α

/-- Metadata Table: map from argument key to a desired value shape, here
as an association list standing for the source HashMap. -/
abbrev Metadata := List (String × ValueKind)

/-- HashMap get: the shape hint stored for a key, if any. -/
def Metadata.get (m : Metadata) (key : String) : Option ValueKind :=
  (m.find? (fun p => p.1 == key)).map Prod.snd

/-- HashMap contains_key, consistent with get. -/
def Metadata.contains_key (m : Metadata) (key : String) : Bool :=
  (Metadata.get m key).isSome

/-- ClapConfig: an argument store plus an optional metadata table. -/
structure ClapConfig where
  arg_matches : ArgMatches
  metadata : Option Metadata

/-- Constructor with no metadata. -/
def ClapConfig.new (arg_matches : ArgMatches) : ClapConfig :=
  { arg_matches := arg_matches, metadata := none }

/-- Constructor with a metadata table. -/
def ClapConfig.new_with_metadata (arg_matches : ArgMatches) (metadata : Metadata) :
    ClapConfig :=
  { arg_matches := arg_matches, metadata := some metadata }

/-- All the command line argument keys. -/
def ClapConfig.get_keys (cfg : ClapConfig) : List String :=
  cfg.arg_matches.get_keys

/-- The metadata entry for a key, looking through the optional table;
absence (whole table absent, or key not present) triggers default policy. -/
def ClapConfig.metadata_entry (cfg : ClapConfig) (key : String) : Option ValueKind :=
  cfg.metadata.bind (fun m => Metadata.get m key)

/-- Default policy (no metadata): one occurrence parses as a String via
get_one (an unwrap that panics were the value absent), several occurrences
parse as an Array of String values each tagged with the uri. -/
def ClapConfig.parse_multiple_values_default (cfg : ClapConfig) (uri : String)
    (key : String) (values : List String) : Outcome Value :=
  if values.length == 1 then
    match cfg.arg_matches.get_one_string key with
    | some s => Outcome.ok (Value.new (some uri) (ValueKind.string s))
    | none => Outcome.panicked "called unwrap on None"
  else
    Outcome.ok (Value.new (some uri)
      (ValueKind.array (values.map (fun s => Value.new (some uri) (ValueKind.string s)))))

/-- Override policy (metadata present for the key): the shape tag of the
metadata entry decides — Array tag gives an Array of all occurrences,
String tag gives a String from get_one (the first occurrence), any other
tag returns the Unsupported ValueKind error.  The expect on the metadata
lookup panics were the entry absent. -/
def ClapConfig.parse_multiple_values_as_array (cfg : ClapConfig) (uri : String)
    (key : String) (values : List String) (metadata : Metadata) : Outcome Value :=
  match Metadata.get metadata key with
  | none => Outcome.panicked "Expected a metadata key"
  | some hash_res =>
    match hash_res with
    | ValueKind.array _ =>
      Outcome.ok (Value.new (some uri)
        (ValueKind.array (values.map (fun s => Value.new (some uri) (ValueKind.string s)))))
    | ValueKind.string _ =>
      match cfg.arg_matches.get_one_string key with
      | some s => Outcome.ok (Value.new (some uri) (ValueKind.string s))
      | none => Outcome.panicked "called unwrap on None"
    | _ => Outcome.err (ConfigError.message "Unsupported ValueKind")

/-- Type Resolver: dispatch on the declared type.  Boolean keys read the
boolean value (the expect panics when the store reports none); string keys
read all occurrences (the unwrap panics when there are none) and apply the
metadata override when a metadata entry exists for the key, the default
policy otherwise; any other declared type falls back to a single String
from get_one. -/
def ClapConfig.parse_arguments (cfg : ClapConfig) (key : String) (type_id : TypeId) :
    Outcome Value :=
  let uri := "clap"
  match type_id with
  | TypeId.boolType =>
    match cfg.arg_matches.get_one_bool key with
    | some b => Outcome.ok (Value.new (some uri) (ValueKind.boolean b))
    | none => Outcome.panicked "Could not get boolean"
  | TypeId.stringType =>
    match cfg.arg_matches.get_many_string key with
    | none => Outcome.panicked "called unwrap on None"
    | some values =>
      match cfg.metadata with
      | some metadata =>
        if Metadata.contains_key metadata key then
          cfg.parse_multiple_values_as_array uri key values metadata
        else
          cfg.parse_multiple_values_default uri key values
      | none => cfg.parse_multiple_values_default uri key values
  | TypeId.otherType =>
    match cfg.arg_matches.get_one_string key with
    | some s => Outcome.ok (Value.new (some uri) (ValueKind.string s))
    | none => Outcome.panicked "called unwrap on None"

/-- Resolution of one key: retrieve the argument, fail with an error when
it or its type information is missing, and dispatch on the declared type. -/
def ClapConfig.get_item (cfg : ClapConfig) (key : String) : Outcome Value :=
  match cfg.arg_matches.get_arg_by_name key with
  | none => Outcome.err (ConfigError.message "Error retrieving clap arguments")
  | some argument_value =>
    match argument_value.type_id with
    | some t => cfg.parse_arguments key t
    | none => Outcome.err (ConfigError.message "No type information")

/-- Output map of the Collector, an association list standing for the
config crate Map. -/
abbrev CMap := List (String × Value)

/-- Map insert: replace the entry when the key is present, append
otherwise. -/
def CMap.insert (m : CMap) (k : String) (v : Value) : CMap :=
  if m.any (fun p => p.1 == k) then
    m.map (fun p => if p.1 == k then (k, v) else p)
  else
    m ++ [(k, v)]

/-- Number of entries of the map carrying a given key. -/
def CMap.count_key (m : CMap) (k : String) : Nat :=
  m.countP (fun p => p.1 == k)

/-- The collection loop: resolve each key in order, inserting into the
accumulated map; the first error or panic aborts the loop. -/
def ClapConfig.collect_from (cfg : ClapConfig) : List String → CMap → Outcome CMap
  | [], acc => Outcome.ok acc
  | k :: ks, acc =>
    match cfg.get_item k with
    | Outcome.ok v => cfg.collect_from ks (CMap.insert acc k v)
    | Outcome.err e => Outcome.err e
    | Outcome.panicked msg => Outcome.panicked msg

/-- Collector: enumerate every recognized key and resolve each one into
the output map. -/
def ClapConfig.collect (cfg : ClapConfig) : Outcome CMap :=
  cfg.collect_from cfg.get_keys []

/-! Helper lemmas about the argument store accessors. -/

theorem get_many_string_of_entry (m : ArgMatches) (key : String) (entry : ArgEntry)
    (h : m.get_arg_by_name key = some entry) :
    m.get_many_string key =
      (if entry.string_values.isEmpty then none else some entry.string_values) := by
  simp [ArgMatches.get_many_string, h]

theorem get_one_string_of_entry (m : ArgMatches) (key : String) (entry : ArgEntry)
    (h : m.get_arg_by_name key = some entry) :
    m.get_one_string key = entry.string_values.head? := by
  simp [ArgMatches.get_one_string, h]

theorem get_one_bool_of_entry (m : ArgMatches) (key : String) (entry : ArgEntry)
    (h : m.get_arg_by_name key = some entry) :
    m.get_one_bool key = entry.bool_value := by
  simp [ArgMatches.get_one_bool, h]

theorem metadata_entry_none_cases (cfg : ClapConfig) (key : String)
    (h : cfg.metadata_entry key = none) :
    cfg.metadata = none ∨
      ∃ m, cfg.metadata = some m ∧ Metadata.get m key = none := by
  cases hm : cfg.metadata with
  | none => exact Or.inl rfl
  | some m =>
    refine Or.inr ⟨m, rfl, ?_⟩
    simpa [ClapConfig.metadata_entry, hm] using h

/-- Claim C1.  Default policy, single occurrence: a string-declared key
with no metadata entry and exactly one supplied occurrence resolves to a
String value (not a one-element sequence) equal to that occurrence. -/
theorem default_single_occurrence_resolves_string
    (cfg : ClapConfig) (key s : String) (entry : ArgEntry)
    (hfind : cfg.arg_matches.get_arg_by_name key = some entry)
    (htype : entry.type_id = some TypeId.stringType)
    (hvals : entry.string_values = [s])
    (hmeta : cfg.metadata_entry key = none) :
    cfg.get_item key = Outcome.ok (Value.new (some "clap") (ValueKind.string s)) := by
  have hmany := get_many_string_of_entry cfg.arg_matches key entry hfind
  have hone := get_one_string_of_entry cfg.arg_matches key entry hfind
  rw [hvals] at hmany hone
  simp only [List.isEmpty_cons, if_neg] at hmany
  simp only [List.head?_cons] at hone
  rcases metadata_entry_none_cases cfg key hmeta with hm | ⟨m, hm, hget⟩
  · simp [ClapConfig.get_item, hfind, htype, ClapConfig.parse_arguments, hmany, hm,
      ClapConfig.parse_multiple_values_default, hone]
  · simp [ClapConfig.get_item, hfind, htype, ClapConfig.parse_arguments, hmany, hm,
      Metadata.contains_key, hget, ClapConfig.parse_multiple_values_default, hone]

def entryC1 : ArgEntry :=
  { type_id := some TypeId.stringType, bool_value := none,
    string_values := ["filename.txt"] }

def cfgC1 : ClapConfig :=
  ClapConfig.new { args := [("input", entryC1)] }

/-- Witness for C1 at a concrete input. -/
theorem default_single_occurrence_resolves_string_witness :
    cfgC1.get_item "input" =
      Outcome.ok (Value.new (some "clap") (ValueKind.string "filename.txt")) :=
  default_single_occurrence_resolves_string cfgC1 "input" "filename.txt" entryC1
    rfl rfl rfl rfl

/-- Claim C2.  Default policy, several occurrences: a string-declared key
with no metadata entry and more than one supplied occurrence resolves to a
Sequence-of-String containing all occurrences in supplied order (so its
length is the occurrence count). -/
theorem default_multiple_occurrences_resolve_array
    (cfg : ClapConfig) (key : String) (entry : ArgEntry)
    (hfind : cfg.arg_matches.get_arg_by_name key = some entry)
    (htype : entry.type_id = some TypeId.stringType)
    (hlen : 1 < entry.string_values.length)
    (hmeta : cfg.metadata_entry key = none) :
    cfg.get_item key = Outcome.ok (Value.new (some "clap")
      (ValueKind.array (entry.string_values.map
        (fun s => Value.new (some "clap") (ValueKind.string s))))) := by
  have hmany := get_many_string_of_entry cfg.arg_matches key entry hfind
  have hne : entry.string_values.isEmpty = false := by
    cases hv : entry.string_values with
    | nil => rw [hv] at hlen; simp at hlen
    | cons a t => simp
  have hlen1 : (entry.string_values.length == 1) = false := by
    simp only [beq_eq_false_iff_ne, ne_eq]
    omega
  rw [hne] at hmany
  simp only [if_false, Bool.false_eq_true] at hmany
  rcases metadata_entry_none_cases cfg key hmeta with hm | ⟨m, hm, hget⟩
  · simp [ClapConfig.get_item, hfind, htype, ClapConfig.parse_arguments, hmany, hm,
      ClapConfig.parse_multiple_values_default, hlen1]
  · simp [ClapConfig.get_item, hfind, htype, ClapConfig.parse_arguments, hmany, hm,
      Metadata.contains_key, hget, ClapConfig.parse_multiple_values_default, hlen1]

def entryC2 : ArgEntry :=
  { type_id := some TypeId.stringType, bool_value := none,
    string_values := ["tagone", "tagtwo"] }

def cfgC2 : ClapConfig :=
  ClapConfig.new { args := [("tag", entryC2)] }

/-- Witness for C2 at a concrete input with two occurrences. -/
theorem default_multiple_occurrences_resolve_array_witness :
    cfgC2.get_item "tag" = Outcome.ok (Value.new (some "clap")
      (ValueKind.array (["tagone", "tagtwo"].map
        (fun s => Value.new (some "clap") (ValueKind.string s))))) :=
  default_multiple_occurrences_resolve_array cfgC2 "tag" entryC2
    rfl rfl (by decide) rfl

theorem metadata_entry_some_cases (cfg : ClapConfig) (key : String) (vk : ValueKind)
    (h : cfg.metadata_entry key = some vk) :
    ∃ m, cfg.metadata = some m ∧ Metadata.get m key = some vk := by
  cases hm : cfg.metadata with
  | none => simp [ClapConfig.metadata_entry, hm] at h
  | some m =>
    refine ⟨m, rfl, ?_⟩
    simpa [ClapConfig.metadata_entry, hm] using h

/-- Claim C3.  Override policy, Sequence shape: a string-declared key whose
metadata entry carries the Array tag resolves to a Sequence-of-String of
all its occurrences whatever their number; with exactly one occurrence the
result is a one-element sequence. -/
theorem metadata_array_shape_resolves_array
    (cfg : ClapConfig) (key : String) (entry : ArgEntry) (l : List Value)
    (hfind : cfg.arg_matches.get_arg_by_name key = some entry)
    (htype : entry.type_id = some TypeId.stringType)
    (hne : entry.string_values ≠ [])
    (hmeta : cfg.metadata_entry key = some (ValueKind.array l)) :
    cfg.get_item key = Outcome.ok (Value.new (some "clap")
      (ValueKind.array (entry.string_values.map
        (fun s => Value.new (some "clap") (ValueKind.string s))))) := by
  obtain ⟨m, hm, hget⟩ := metadata_entry_some_cases cfg key _ hmeta
  have hmany := get_many_string_of_entry cfg.arg_matches key entry hfind
  have hemp : entry.string_values.isEmpty = false := by
    simpa [List.isEmpty_iff] using hne
  rw [hemp] at hmany
  simp only [if_false, Bool.false_eq_true] at hmany
  simp [ClapConfig.get_item, hfind, htype, ClapConfig.parse_arguments, hmany, hm,
    Metadata.contains_key, hget, ClapConfig.parse_multiple_values_as_array]

def entryC3 : ArgEntry :=
  { type_id := some TypeId.stringType, bool_value := none,
    string_values := ["tagone"] }

def cfgC3 : ClapConfig :=
  ClapConfig.new_with_metadata { args := [("tag", entryC3)] }
    [("tag", ValueKind.array [])]

/-- Witness for C3 at a concrete input: one occurrence with Array-shaped
metadata gives a one-element sequence, not a String. -/
theorem metadata_array_shape_resolves_array_witness :
    cfgC3.get_item "tag" = Outcome.ok (Value.new (some "clap")
      (ValueKind.array (["tagone"].map
        (fun s => Value.new (some "clap") (ValueKind.string s))))) :=
  metadata_array_shape_resolves_array cfgC3 "tag" entryC3 []
    rfl rfl (by decide) rfl

/-- Claim C4.  Override policy, String shape: a string-declared key whose
metadata entry carries the String tag resolves to a String equal to the
first occurrence whatever the occurrence count; later occurrences do not
appear in the result. -/
theorem metadata_string_shape_resolves_first_string
    (cfg : ClapConfig) (key : String) (entry : ArgEntry) (t s : String)
    (rest : List String)
    (hfind : cfg.arg_matches.get_arg_by_name key = some entry)
    (htype : entry.type_id = some TypeId.stringType)
    (hvals : entry.string_values = s :: rest)
    (hmeta : cfg.metadata_entry key = some (ValueKind.string t)) :
    cfg.get_item key = Outcome.ok (Value.new (some "clap") (ValueKind.string s)) := by
  obtain ⟨m, hm, hget⟩ := metadata_entry_some_cases cfg key _ hmeta
  have hmany := get_many_string_of_entry cfg.arg_matches key entry hfind
  have hone := get_one_string_of_entry cfg.arg_matches key entry hfind
  rw [hvals] at hmany hone
  simp only [List.isEmpty_cons, if_neg] at hmany
  simp only [List.head?_cons] at hone
  simp [ClapConfig.get_item, hfind, htype, ClapConfig.parse_arguments, hmany, hm,
    Metadata.contains_key, hget, ClapConfig.parse_multiple_values_as_array, hone]

def entryC4 : ArgEntry :=
  { type_id := some TypeId.stringType, bool_value := none,
    string_values := ["tagone", "tagtwo"] }

def cfgC4 : ClapConfig :=
  ClapConfig.new_with_metadata { args := [("tag", entryC4)] }
    [("tag", ValueKind.string "")]

/-- Witness for C4 at a concrete input: two occurrences with String-shaped
metadata give the first occurrence only. -/
theorem metadata_string_shape_resolves_first_string_witness :
    cfgC4.get_item "tag" =
      Outcome.ok (Value.new (some "clap") (ValueKind.string "tagone")) :=
  metadata_string_shape_resolves_first_string cfgC4 "tag" entryC4 "" "tagone"
    ["tagtwo"] rfl rfl rfl rfl

/-- Claim C5.  Boolean keys ignore metadata: for a boolean-declared key,
resolution gives the same outcome under any two metadata tables (present
or absent, any shapes), and when the store reports a boolean it is that
Boolean value. -/
theorem boolean_key_independent_of_metadata
    (am : ArgMatches) (md md2 : Option Metadata) (key : String) (entry : ArgEntry)
    (hfind : am.get_arg_by_name key = some entry)
    (htype : entry.type_id = some TypeId.boolType) :
    (ClapConfig.mk am md).get_item key = (ClapConfig.mk am md2).get_item key ∧
    ∀ b, entry.bool_value = some b →
      (ClapConfig.mk am md).get_item key =
        Outcome.ok (Value.new (some "clap") (ValueKind.boolean b)) := by
  have hbool := get_one_bool_of_entry am key entry hfind
  constructor
  · simp [ClapConfig.get_item, hfind, htype, ClapConfig.parse_arguments]
  · intro b hb
    rw [hb] at hbool
    simp [ClapConfig.get_item, hfind, htype, ClapConfig.parse_arguments, hbool]

def entryC5 : ArgEntry :=
  { type_id := some TypeId.boolType, bool_value := some true,
    string_values := [] }

def amC5 : ArgMatches := { args := [("verbose", entryC5)] }

/-- Witness for C5 at a concrete input: with no metadata and with an
Array-shaped metadata entry for the very key, the outcome is the same
Boolean value. -/
theorem boolean_key_independent_of_metadata_witness :
    (ClapConfig.mk amC5 none).get_item "verbose" =
      (ClapConfig.mk amC5 (some [("verbose", ValueKind.array [])])).get_item "verbose" ∧
    (ClapConfig.mk amC5 none).get_item "verbose" =
      Outcome.ok (Value.new (some "clap") (ValueKind.boolean true)) := by
  have h := boolean_key_independent_of_metadata amC5 none
    (some [("verbose", ValueKind.array [])]) "verbose" entryC5 rfl rfl
  exact ⟨h.1, h.2 true rfl⟩

/-- Tag test used by claim C8: does a metadata shape carry the String or
the Array tag. -/
def ValueKind.is_string_or_array : ValueKind → Bool
  | ValueKind.string _ => true
  | ValueKind.array _ => true
  | _ => false

/-- Claim C8.  Unsupported shape: a string-declared key that was supplied
and whose metadata entry carries a tag other than String or Array resolves
to the Unsupported ValueKind error, returned to the caller. -/
theorem metadata_unsupported_shape_errors
    (cfg : ClapConfig) (key : String) (entry : ArgEntry) (vk : ValueKind)
    (hfind : cfg.arg_matches.get_arg_by_name key = some entry)
    (htype : entry.type_id = some TypeId.stringType)
    (hne : entry.string_values ≠ [])
    (hmeta : cfg.metadata_entry key = some vk)
    (hshape : vk.is_string_or_array = false) :
    cfg.get_item key = Outcome.err (ConfigError.message "Unsupported ValueKind") := by
  obtain ⟨m, hm, hget⟩ := metadata_entry_some_cases cfg key _ hmeta
  have hmany := get_many_string_of_entry cfg.arg_matches key entry hfind
  have hemp : entry.string_values.isEmpty = false := by
    simpa [List.isEmpty_iff] using hne
  rw [hemp] at hmany
  simp only [if_false, Bool.false_eq_true] at hmany
  cases vk with
  | nil =>
    simp [ClapConfig.get_item, hfind, htype, ClapConfig.parse_arguments, hmany, hm,
      Metadata.contains_key, hget, ClapConfig.parse_multiple_values_as_array]
  | boolean b =>
    simp [ClapConfig.get_item, hfind, htype, ClapConfig.parse_arguments, hmany, hm,
      Metadata.contains_key, hget, ClapConfig.parse_multiple_values_as_array]
  | i64 n =>
    simp [ClapConfig.get_item, hfind, htype, ClapConfig.parse_arguments, hmany, hm,
      Metadata.contains_key, hget, ClapConfig.parse_multiple_values_as_array]
  | u64 n =>
    simp [ClapConfig.get_item, hfind, htype, ClapConfig.parse_arguments, hmany, hm,
      Metadata.contains_key, hget, ClapConfig.parse_multiple_values_as_array]
  | string s => simp [ValueKind.is_string_or_array] at hshape
  | array l => simp [ValueKind.is_string_or_array] at hshape

def entryC8 : ArgEntry :=
  { type_id := some TypeId.stringType, bool_value := none,
    string_values := ["tagone"] }

def cfgC8 : ClapConfig :=
  ClapConfig.new_with_metadata { args := [("tag", entryC8)] }
    [("tag", ValueKind.boolean false)]

/-- Witness for C8 at a concrete input with a Boolean-shaped metadata
entry. -/
theorem metadata_unsupported_shape_errors_witness :
    cfgC8.get_item "tag" =
      Outcome.err (ConfigError.message "Unsupported ValueKind") :=
  metadata_unsupported_shape_errors cfgC8 "tag" entryC8 (ValueKind.boolean false)
    rfl rfl (by decide) rfl rfl

def entryC9 : ArgEntry :=
  { type_id := some TypeId.boolType, bool_value := none,
    string_values := [] }

def cfgC9 : ClapConfig :=
  ClapConfig.new { args := [("flag", entryC9)] }

/-- Counterexample to claim C9 as stated: at the concrete key flag,
declared boolean with no boolean value in the store, resolution does not
return any error to the caller — it panics (the expect in the boolean
branch terminates abnormally). -/
theorem boolean_missing_value_no_error_counterexample :
    cfgC9.get_item "flag" = Outcome.panicked "Could not get boolean" ∧
    ∀ e, cfgC9.get_item "flag" ≠ Outcome.err e := by
  constructor
  · rfl
  · intro e h
    exact Outcome.noConfusion
      (show (Outcome.panicked "Could not get boolean" : Outcome Value) =
        Outcome.err e from h)

/-- Claim C9 amended.  For a key declared boolean for which the store
reports no boolean value, resolution terminates abnormally: it panics with
the message of the expect rather than returning a MissingValue error to
the caller. -/
theorem boolean_missing_value_panics
    (cfg : ClapConfig) (key : String) (entry : ArgEntry)
    (hfind : cfg.arg_matches.get_arg_by_name key = some entry)
    (htype : entry.type_id = some TypeId.boolType)
    (hb : entry.bool_value = none) :
    cfg.get_item key = Outcome.panicked "Could not get boolean" := by
  have hbool := get_one_bool_of_entry cfg.arg_matches key entry hfind
  rw [hb] at hbool
  simp [ClapConfig.get_item, hfind, htype, ClapConfig.parse_arguments, hbool]

/-- Witness for the amended C9 at a concrete input. -/
theorem boolean_missing_value_panics_witness :
    cfgC9.get_item "flag" = Outcome.panicked "Could not get boolean" :=
  boolean_missing_value_panics cfgC9 "flag" entryC9 rfl rfl rfl

theorem collect_from_propagates (cfg : ClapConfig) (ks1 : List String) :
    ∀ (acc : CMap) (k : String) (ks2 : List String) (e : ConfigError),
      (∀ k2 ∈ ks1, ∃ v, cfg.get_item k2 = Outcome.ok v) →
      cfg.get_item k = Outcome.err e →
      cfg.collect_from (ks1 ++ k :: ks2) acc = Outcome.err e := by
  induction ks1 with
  | nil =>
    intro acc k ks2 e _ herr
    simp [ClapConfig.collect_from, herr]
  | cons a t ih =>
    intro acc k ks2 e hok herr
    obtain ⟨v, hv⟩ := hok a (by simp)
    simp only [List.cons_append, ClapConfig.collect_from, hv]
    exact ih _ k ks2 e (fun k2 hk2 => hok k2 (by simp [hk2])) herr

/-- Claim C6.  Fail fast: when some enumerated key resolves to an error
and every key listed before it resolves successfully, collect returns that
very error — no map, partially populated or otherwise, is returned. -/
theorem collect_propagates_first_error
    (cfg : ClapConfig) (ks1 ks2 : List String) (k : String) (e : ConfigError)
    (hkeys : cfg.get_keys = ks1 ++ k :: ks2)
    (hok : ∀ k2 ∈ ks1, ∃ v, cfg.get_item k2 = Outcome.ok v)
    (herr : cfg.get_item k = Outcome.err e) :
    cfg.collect = Outcome.err e := by
  unfold ClapConfig.collect
  rw [hkeys]
  exact collect_from_propagates cfg ks1 [] k ks2 e hok herr

def entryC6good : ArgEntry :=
  { type_id := some TypeId.stringType, bool_value := none,
    string_values := ["filename"] }

def entryC6bad : ArgEntry :=
  { type_id := none, bool_value := none, string_values := [] }

def cfgC6 : ClapConfig :=
  ClapConfig.new { args := [("input", entryC6good), ("broken", entryC6bad)] }

/-- Witness for C6 at a concrete input: a store whose second key has no
type information makes collect return the No type information error. -/
theorem collect_propagates_first_error_witness :
    cfgC6.collect = Outcome.err (ConfigError.message "No type information") := by
  refine collect_propagates_first_error cfgC6 ["input"] [] "broken"
    (ConfigError.message "No type information") rfl ?_ rfl
  intro k2 hk2
  have hk : k2 = "input" := by simpa using hk2
  subst hk
  exact ⟨Value.new (some "clap") (ValueKind.string "filename"), rfl⟩

/-! Counting lemmas for the output map. -/

theorem count_key_insert_self (m : CMap) (k : String) (v : Value)
    (h : CMap.count_key m k ≤ 1) :
    CMap.count_key (CMap.insert m k v) k = 1 := by
  unfold CMap.count_key CMap.insert
  unfold CMap.count_key at h
  split
  · next hany =>
    rw [List.countP_map]
    have hpred : ((fun p : String × Value => p.1 == k) ∘
        (fun p : String × Value => if p.1 == k then (k, v) else p)) =
        fun p : String × Value => p.1 == k := by
      funext p
      cases hp : p.1 == k with
      | true => simp [Function.comp, hp]
      | false => simp [Function.comp, hp]
    rw [hpred]
    have hpos : 0 < m.countP (fun p => p.1 == k) := by
      rw [List.countP_pos_iff]
      obtain ⟨a, ha, hpa⟩ := List.any_eq_true.mp hany
      exact ⟨a, ha, hpa⟩
    omega
  · next hany =>
    have hany2 : (m.any fun p : String × Value => p.1 == k) = false := by
      simp only [Bool.not_eq_true] at hany
      exact hany
    have hz : m.countP (fun p : String × Value => p.1 == k) = 0 := by
      rw [List.countP_eq_zero]
      intro a ha
      have := List.any_eq_false.mp hany2 a ha
      simpa using this
    simp [List.countP_append, hz]

theorem count_key_insert_other (m : CMap) (k k2 : String) (v : Value)
    (h : k2 ≠ k) :
    CMap.count_key (CMap.insert m k v) k2 = CMap.count_key m k2 := by
  have hkk : (k == k2) = false := by
    simp [beq_eq_false_iff_ne]
    exact fun he => h he.symm
  unfold CMap.count_key CMap.insert
  split
  · rw [List.countP_map]
    have hpred : ((fun p : String × Value => p.1 == k2) ∘
        (fun p : String × Value => if p.1 == k then (k, v) else p)) =
        fun p : String × Value => p.1 == k2 := by
      funext p
      cases hp : p.1 == k with
      | true =>
        have hp2 : p.1 = k := by simpa using hp
        simp [Function.comp, hp, hp2]
      | false => simp [Function.comp, hp]
    rw [hpred]
  · simp [List.countP_append, hkk]

theorem collect_from_cons_ok (cfg : ClapConfig) (a : String) (t : List String)
    (acc m2 : CMap) (h : cfg.collect_from (a :: t) acc = Outcome.ok m2) :
    ∃ v, cfg.get_item a = Outcome.ok v ∧
      cfg.collect_from t (CMap.insert acc a v) = Outcome.ok m2 := by
  cases hg : cfg.get_item a with
  | ok v =>
    refine ⟨v, rfl, ?_⟩
    simpa [ClapConfig.collect_from, hg] using h
  | err e => simp [ClapConfig.collect_from, hg] at h
  | panicked msg => simp [ClapConfig.collect_from, hg] at h

theorem collect_from_count (cfg : ClapConfig) (ks : List String) :
    ∀ (acc m2 : CMap),
      (∀ k2, CMap.count_key acc k2 ≤ 1) →
      cfg.collect_from ks acc = Outcome.ok m2 →
      ∀ k, CMap.count_key m2 k = if k ∈ ks then 1 else CMap.count_key acc k := by
  induction ks with
  | nil =>
    intro acc m2 hinv h k
    have hacc : acc = m2 := by
      simpa [ClapConfig.collect_from] using h
    subst hacc
    simp
  | cons a t ih =>
    intro acc m2 hinv h k
    obtain ⟨v, hg, hrest⟩ := collect_from_cons_ok cfg a t acc m2 h
    have hinv2 : ∀ k2, CMap.count_key (CMap.insert acc a v) k2 ≤ 1 := by
      intro k2
      by_cases hk2 : k2 = a
      · subst hk2
        rw [count_key_insert_self acc k2 v (hinv k2)]
      · rw [count_key_insert_other acc a k2 v hk2]
        exact hinv k2
    have hcount := ih (CMap.insert acc a v) m2 hinv2 hrest k
    by_cases hka : k = a
    · subst hka
      rw [if_pos (List.mem_cons_self k t)]
      by_cases hkt : k ∈ t
      · rw [hcount, if_pos hkt]
      · rw [hcount, if_neg hkt, count_key_insert_self acc k v (hinv k)]
    · by_cases hkt : k ∈ t
      · rw [if_pos (List.mem_cons_of_mem a hkt), hcount, if_pos hkt]
      · rw [if_neg (by simp [hka, hkt]), hcount, if_neg hkt,
          count_key_insert_other acc a k v hka]

/-- Claim C7.  Totality of a successful collection: when collect returns a
map, that map holds exactly one entry for every key the store enumerates
and none for any other key — no enumerated key is omitted and no key
appears more than once. -/
theorem collect_map_exactly_one_entry_per_key
    (cfg : ClapConfig) (m2 : CMap)
    (h : cfg.collect = Outcome.ok m2) :
    ∀ k, CMap.count_key m2 k = if k ∈ cfg.get_keys then 1 else 0 := by
  intro k
  have hbase : ∀ k2, CMap.count_key ([] : CMap) k2 ≤ 1 := by
    intro k2
    simp [CMap.count_key]
  have := collect_from_count cfg cfg.get_keys [] m2 hbase h k
  simpa [CMap.count_key] using this

def entryC7 : ArgEntry :=
  { type_id := some TypeId.stringType, bool_value := none,
    string_values := ["filename"] }

def cfgC7 : ClapConfig :=
  ClapConfig.new { args := [("input", entryC7)] }

def mapC7 : CMap :=
  [("input", Value.new (some "clap") (ValueKind.string "filename"))]

/-- Witness for C7 at a concrete input whose collection succeeds. -/
theorem collect_map_exactly_one_entry_per_key_witness :
    CMap.count_key mapC7 "input" = if "input" ∈ cfgC7.get_keys then 1 else 0 :=
  collect_map_exactly_one_entry_per_key cfgC7 mapC7 rfl "input"

/-! Origin tagging lemmas for claim C10. -/

theorem default_array_elements_origin (cfg : ClapConfig) (uri key : String)
    (values : List String) (v : Value) (elems : List Value)
    (hok : cfg.parse_multiple_values_default uri key values = Outcome.ok v)
    (hkind : v.kind = ValueKind.array elems) :
    v.origin = some uri ∧ ∀ e ∈ elems, e.origin = some uri := by
  unfold ClapConfig.parse_multiple_values_default at hok
  split at hok
  · cases hone : cfg.arg_matches.get_one_string key with
    | some s =>
      rw [hone] at hok
      simp only [Outcome.ok.injEq] at hok
      subst hok
      simp [Value.new, Value.kind] at hkind
    | none =>
      rw [hone] at hok
      exact Outcome.noConfusion hok
  · simp only [Outcome.ok.injEq] at hok
    subst hok
    simp only [Value.kind_new, ValueKind.array.injEq] at hkind
    subst hkind
    refine ⟨rfl, ?_⟩
    intro e he
    obtain ⟨s, hs, rfl⟩ := List.mem_map.mp he
    rfl

theorem as_array_elements_origin (cfg : ClapConfig) (uri key : String)
    (values : List String) (metadata : Metadata) (v : Value) (elems : List Value)
    (hok : cfg.parse_multiple_values_as_array uri key values metadata = Outcome.ok v)
    (hkind : v.kind = ValueKind.array elems) :
    v.origin = some uri ∧ ∀ e ∈ elems, e.origin = some uri := by
  unfold ClapConfig.parse_multiple_values_as_array at hok
  split at hok
  · exact Outcome.noConfusion hok
  · next hash_res _ =>
    split at hok
    · simp only [Outcome.ok.injEq] at hok
      subst hok
      simp only [Value.kind_new, ValueKind.array.injEq] at hkind
      subst hkind
      refine ⟨rfl, ?_⟩
      intro e he
      obtain ⟨s, hs, rfl⟩ := List.mem_map.mp he
      rfl
    · split at hok
      · simp only [Outcome.ok.injEq] at hok
        subst hok
        simp [Value.new, Value.kind] at hkind
      · exact Outcome.noConfusion hok
    · exact Outcome.noConfusion hok

theorem parse_arguments_array_elements_origin (cfg : ClapConfig) (key : String)
    (t : TypeId) (v : Value) (elems : List Value)
    (hok : cfg.parse_arguments key t = Outcome.ok v)
    (hkind : v.kind = ValueKind.array elems) :
    v.origin = some "clap" ∧ ∀ e ∈ elems, e.origin = some "clap" := by
  unfold ClapConfig.parse_arguments at hok
  cases t with
  | boolType =>
    simp only at hok
    split at hok
    · simp only [Outcome.ok.injEq] at hok
      subst hok
      simp [Value.new, Value.kind] at hkind
    · exact Outcome.noConfusion hok
  | stringType =>
    simp only at hok
    split at hok
    · exact Outcome.noConfusion hok
    · split at hok
      · split at hok
        · exact as_array_elements_origin cfg "clap" key _ _ v elems hok hkind
        · exact default_array_elements_origin cfg "clap" key _ v elems hok hkind
      · exact default_array_elements_origin cfg "clap" key _ v elems hok hkind
  | otherType =>
    simp only at hok
    split at hok
    · simp only [Outcome.ok.injEq] at hok
      subst hok
      simp [Value.new, Value.kind] at hkind
    · exact Outcome.noConfusion hok

/-- Claim C10.  Origin tagging of sequences: whenever resolution of a key
returns a Sequence-of-String value, the enclosing value and every element
of the sequence carry the same fixed origin label clap. -/
theorem array_elements_tagged_with_clap_origin
    (cfg : ClapConfig) (key : String) (v : Value) (elems : List Value)
    (hok : cfg.get_item key = Outcome.ok v)
    (hkind : v.kind = ValueKind.array elems) :
    v.origin = some "clap" ∧ ∀ e ∈ elems, e.origin = some "clap" := by
  unfold ClapConfig.get_item at hok
  split at hok
  · exact Outcome.noConfusion hok
  · split at hok
    · exact parse_arguments_array_elements_origin cfg key _ v elems hok hkind
    · exact Outcome.noConfusion hok

def elemsC10 : List Value :=
  [Value.new (some "clap") (ValueKind.string "tagone"),
   Value.new (some "clap") (ValueKind.string "tagtwo")]

def entryC10 : ArgEntry :=
  { type_id := some TypeId.stringType, bool_value := none,
    string_values := ["tagone", "tagtwo"] }

def cfgC10 : ClapConfig :=
  ClapConfig.new { args := [("tag", entryC10)] }

/-- Witness for C10 at a concrete input resolving to a two-element
sequence. -/
theorem array_elements_tagged_with_clap_origin_witness :
    (Value.new (some "clap") (ValueKind.array elemsC10)).origin = some "clap" ∧
    ∀ e ∈ elemsC10, e.origin = some "clap" :=
  array_elements_tagged_with_clap_origin cfgC10 "tag"
    (Value.new (some "clap") (ValueKind.array elemsC10)) elemsC10 rfl rfl
